import Mathlib

/-!
Shallow embedding of the user-space file-system simulator in
src/fsWithoutPermissions.c, together with proofs settling the frozen
claims about its specification.

Modelling conventions:
* C `int` fields are `Int`; C `unsigned int` fields are `Nat` (masks that
  depend on the 32-bit width are written with the explicit 32-bit constant).
* Fixed C arrays paired with an explicit element count (the ACL array with
  `acl_count`, the directory-entry array with `entry_count`) are modelled as
  the list of their first `count` elements; the count is the list length.
* `time_t` is `Nat`; calls to `time(NULL)` read the `now` field of the state.
* The host OS file system is modelled as the list of full paths of existing
  files; host writes that cannot fail in the model (e.g. `remove` after a
  successful `access`) are modelled as succeeding, and the one host step a
  claim injects a failure into (`fopen` in `create_file`) takes the outcome
  as an explicit boolean parameter.
* The persisted journal file is the list of its text lines.
* `strncpy` truncation of near-limit strings is not modelled (all strings in
  the claims are far below the C buffer sizes).
-/

namespace FS

/-- Constants from the C `#define`s. -/
def BLOCK_SIZE : Nat := 4096

def NUM_BLOCKS : Nat := 1024

def INODE_TABLE_SIZE : Nat := 128

def MAX_FILES : Nat := 128

def DIRECT_BLOCKS : Nat := 12

def MAX_ACL_ENTRIES : Nat := 10

def PERMISSION_READ : Nat := 0x4

def PERMISSION_WRITE : Nat := 0x2

def PERMISSION_EXECUTE : Nat := 0x1

def JOURNAL_SIZE : Nat := 1024

/-- Complement, within a 32-bit unsigned int, of
`PERMISSION_READ | PERMISSION_WRITE | PERMISSION_EXECUTE`; the C code writes
it `~(PERMISSION_READ | PERMISSION_WRITE | PERMISSION_EXECUTE)`. -/
def INVALID_PERMISSION_MASK : Nat := 0xFFFFFFF8

/-- Values of the C `JournalOperation` enum, kept as `Int` because the C code
stores the result of `string_to_operation`, which can be `-1`, in the same
field. -/
def CREATE : Int := 0

def DELETE : Int := 1

def MODIFY : Int := 2

def RENAME : Int := 3

def READ : Int := 4

def CHANGE_PERMISSIONS : Int := 5

/-- The C globals `current_user_id` / `current_group_id`. -/
def current_user_id : Int := 11

def current_group_id : Int := 10

def TEST_FOLDER_PATH : String := "C:/Users/CLIENT/Music/tests/"

/-- The C struct `JournalEntry`. -/
structure JournalEntry where
  operation : Int
  filename : String
  new_filename : String
  data : String
  timestamp : Nat
deriving DecidableEq, Repr

/-- A zeroed `JournalEntry`, the content of the global `journal` array at
program start. -/
def emptyJournalEntry : JournalEntry :=
  { operation := 0, filename := "", new_filename := "", data := "", timestamp := 0 }

/-- The C struct `Superblock`. `free_block_bitmap` keeps the C convention:
`0` = free, `1` = used. -/
structure Superblock where
  _size : Int
  num_blocks : Int
  free_blocks : Int
  inode_table_size : Int
  free_inode_count : Int
  free_block_bitmap : List Nat
deriving DecidableEq, Repr

/-- The C struct `ACL_Entry`. -/
structure ACL_Entry where
  user_id : Int
  permissions : Nat
deriving DecidableEq, Repr

/-- The C struct `Inode`. The `acl` array together with `acl_count` is
modelled as the list of the first `acl_count` entries. -/
structure Inode where
  is_directory : Int
  _size : Int
  direct_blocks : List Int
  index_block : Int
  mode : Nat
  atime : Nat
  mtime : Nat
  ctime : Nat
  owner_id : Int
  group_id : Int
  acl : List ACL_Entry
deriving DecidableEq, Repr

def Inode.acl_count (ino : Inode) : Nat := ino.acl.length

/-- A zeroed `Inode` (`memset(inode_table[i], 0, sizeof(Inode))`). -/
def zeroInode : Inode :=
  { is_directory := 0, _size := 0, direct_blocks := List.replicate DIRECT_BLOCKS 0,
    index_block := 0, mode := 0, atime := 0, mtime := 0, ctime := 0,
    owner_id := 0, group_id := 0, acl := [] }

/-- The C struct `DirectoryEntry`. -/
structure DirectoryEntry where
  name : String
  inode_number : Int
deriving DecidableEq, Repr

/-- The C struct `Directory`: the `entries` array with `entry_count` is the
list of the first `entry_count` entries. -/
structure Directory where
  entries : List DirectoryEntry
deriving DecidableEq, Repr

def Directory.entry_count (d : Directory) : Nat := d.entries.length

/-- Aggregate of the C globals mutated by the core operations: `superblock`,
`inode_table`, `root_directory`, `journal`, `journal_index`, plus the model
of the host file system, the persisted `journal.log` contents, and the clock
read by `time(NULL)`. -/
structure FSState where
  superblock : Superblock
  inode_table : List Inode
  root_directory : Directory
  journal : List JournalEntry
  journal_index : Nat
  saved_log : List String
  host_files : List String
  now : Nat
deriving DecidableEq, Repr

/-! ### Generic first-index scan

Each of the C linear scans (`allocate_block`, `create_inode`, the
directory-entry searches) is a first-match scan; `scanIdx p l` is the index
of the first element of `l` satisfying `p`. -/

def scanIdx (p : α → Bool) : List α → Option Nat
  | [] => none
  | a :: as => if p a then some 0 else (scanIdx p as).map (fun n => n + 1)

/-! ### Journal -/

/-- The C function `operation_to_string`. -/
def operation_to_string (operation : Int) : String :=
  if operation = CREATE then "CREATED"
  else if operation = DELETE then "DELETED"
  else if operation = MODIFY then "MODIFIED"
  else if operation = RENAME then "RENAMED"
  else if operation = READ then "READ"
  else if operation = CHANGE_PERMISSIONS then "CHANGED PERMISSIONS"
  else "UNKNOWN"

/-- The C function `string_to_operation`; returns `-1` for an unknown
operation tag. -/
def string_to_operation (str : String) : Int :=
  if str = "CREATE" then CREATE
  else if str = "DELETE" then DELETE
  else if str = "MODIFY" then MODIFY
  else if str = "RENAME" then RENAME
  else if str = "READ" then READ
  else if str = "CHANGE_PERMISSIONS" then CHANGE_PERMISSIONS
  else -1

/-- One line of `journal.log` as written by `save_journal`
(`"%ld %s %s %s %s\n"`). -/
def journal_line (e : JournalEntry) : String :=
  toString e.timestamp ++ " " ++ operation_to_string e.operation ++ " " ++
    e.filename ++ " " ++ e.new_filename ++ " " ++ e.data

/-- The body of the C function `save_journal`: serialize every entry whose
timestamp is non-zero, in slot order, skipping empty entries. -/
def save_journal_lines (journal : List JournalEntry) : List String :=
  (journal.filter (fun e => e.timestamp != 0)).map journal_line

/-- The C function `save_journal`, as the contents it writes to
`journal.log`. -/
def save_journal (st : FSState) : List String :=
  save_journal_lines st.journal

/-- The C function `add_journal_entry`: rejects a NULL filename; otherwise
writes the entry at the current ring index with the current time, advances
the index with wraparound, and immediately rewrites the whole persisted
log. -/
def add_journal_entry (operation : Int) (filename : Option String)
    (new_filename : Option String) (data : Option String) (st : FSState) : FSState :=
  match filename with
  | none => st
  | some fn =>
    let e : JournalEntry :=
      { operation := operation, filename := fn,
        new_filename := new_filename.getD "", data := data.getD "",
        timestamp := st.now }
    let st1 := { st with journal := st.journal.set st.journal_index e,
                         journal_index := (st.journal_index + 1) % JOURNAL_SIZE }
    { st1 with saved_log := save_journal st1 }

/-- Whitespace tokenization as `sscanf`'s `%s` performs it: `cur` is the
reversed run of non-space characters read so far; a space closes the
current token. -/
def tokenize_aux : List Char → List Char → List String
  | [], cur => if cur = [] then [] else [String.mk cur.reverse]
  | c :: cs, cur =>
    if c = ' ' then
      if cur = [] then tokenize_aux cs []
      else String.mk cur.reverse :: tokenize_aux cs []
    else tokenize_aux cs (c :: cur)

/-- The maximal space-free tokens of a line, in order. -/
def tokenize (line : String) : List String :=
  tokenize_aux line.data []

/-- Decimal-digit value of a character, when it is a digit. -/
def char_digit? (c : Char) : Option Nat :=
  if '0' ≤ c ∧ c ≤ '9' then some (c.toNat - ('0').toNat) else none

/-- Decimal number parsing as `sscanf`'s `%ld` performs it on an all-digit
token (the timestamps this program writes); any non-digit makes the
conversion fail. -/
def parse_nat_aux : List Char → Nat → Option Nat
  | [], acc => some acc
  | c :: cs, acc =>
    match char_digit? c with
    | some d => parse_nat_aux cs (acc * 10 + d)
    | none => none

def parse_timestamp (s : String) : Option Nat :=
  match s.data with
  | [] => none
  | cs => parse_nat_aux cs 0

/-- One `sscanf(line, "%ld %s %s %s %s", ...)` call of the C function
`init_journal`: tokens are maximal whitespace-free runs; the line is
accepted when at least three fields convert (a numeric timestamp, the
operation tag and the filename). A missing fourth or fifth token leaves the
corresponding C stack buffer uninitialized; the model reads those as `""`
(the C behaviour is undefined; no claim depends on these bytes). -/
def parse_journal_line (line : String) : Option JournalEntry :=
  match tokenize line with
  | t0 :: t1 :: t2 :: rest =>
    match parse_timestamp t0 with
    | some ts =>
      some { operation := string_to_operation t1, filename := t2,
             new_filename := (rest[0]?).getD "", data := (rest[1]?).getD "",
             timestamp := ts }
    | none => none
  | _ => none

/-- The C function `init_journal` on the path where `journal.log` exists:
re-fills the journal array from the persisted lines (at most `JOURNAL_SIZE`
of them) and sets `journal_index` to the number read, mod the ring size.
Returns the journal array and `journal_index`. -/
def init_journal (lines : List String) : List JournalEntry × Nat :=
  let step := fun (acc : List JournalEntry × Nat) (line : String) =>
    if acc.2 < JOURNAL_SIZE then
      match parse_journal_line line with
      | some e => (acc.1.set acc.2 e, acc.2 + 1)
      | none => acc
    else acc
  let r := lines.foldl step (List.replicate JOURNAL_SIZE emptyJournalEntry, 0)
  (r.1, r.2 % JOURNAL_SIZE)

/-! ### Block allocator -/

/-- Number of blocks the bitmap marks free (`count(bitmap == free)` in the
spec, with the C convention `0` = free). -/
def countFree (bitmap : List Nat) : Nat := bitmap.countP (fun b => b == 0)

/-- The C function `allocate_block`: linear scan for the first bitmap slot
equal to `0`; marks it `1` and decrements `free_blocks`; returns `-1` when
no free block exists. -/
def allocate_block (sb : Superblock) : Int × Superblock :=
  match scanIdx (fun b => b == 0) sb.free_block_bitmap with
  | some i =>
      ((i : Int),
        { sb with free_block_bitmap := sb.free_block_bitmap.set i 1,
                  free_blocks := sb.free_blocks - 1 })
  | none => (-1, sb)

/-- The C function `free_block`: no-op when the index is out of range or the
block is already free; otherwise marks it free and increments
`free_blocks`. -/
def free_block (block_number : Int) (sb : Superblock) : Superblock :=
  if block_number < 0 ∨ block_number ≥ (NUM_BLOCKS : Int) then sb
  else if sb.free_block_bitmap.getD block_number.toNat 0 = 1 then
    { sb with free_block_bitmap := sb.free_block_bitmap.set block_number.toNat 0,
              free_blocks := sb.free_blocks + 1 }
  else sb

/-- The C function `allocate_index_block`; its body is identical to
`allocate_block`. -/
def allocate_index_block (sb : Superblock) : Int × Superblock :=
  match scanIdx (fun b => b == 0) sb.free_block_bitmap with
  | some i =>
      ((i : Int),
        { sb with free_block_bitmap := sb.free_block_bitmap.set i 1,
                  free_blocks := sb.free_blocks - 1 })
  | none => (-1, sb)

/-- The C function `free_index_block`; its body is identical to
`free_block`. -/
def free_index_block (block_number : Int) (sb : Superblock) : Superblock :=
  if block_number < 0 ∨ block_number ≥ (NUM_BLOCKS : Int) then sb
  else if sb.free_block_bitmap.getD block_number.toNat 0 = 1 then
    { sb with free_block_bitmap := sb.free_block_bitmap.set block_number.toNat 0,
              free_blocks := sb.free_blocks + 1 }
  else sb

/-- The superblock produced by `init_file_system` when no snapshot file is
present (the fresh-start path): note `free_blocks` is set to
`NUM_BLOCKS - 1` while the whole bitmap is zeroed. -/
def init_superblock : Superblock :=
  { _size := ((NUM_BLOCKS * BLOCK_SIZE : Nat) : Int),
    num_blocks := (NUM_BLOCKS : Int),
    free_blocks := (NUM_BLOCKS : Int) - 1,
    inode_table_size := (INODE_TABLE_SIZE : Int),
    free_inode_count := (INODE_TABLE_SIZE : Int),
    free_block_bitmap := List.replicate NUM_BLOCKS 0 }

/-- The full state produced by `init_file_system` on the fresh-start path
(no snapshot on disk), bundled with the start-of-process values of the
journal globals and an empty host directory. -/
def init_file_system : FSState :=
  { superblock := init_superblock,
    inode_table := List.replicate INODE_TABLE_SIZE zeroInode,
    root_directory := { entries := [] },
    journal := List.replicate JOURNAL_SIZE emptyJournalEntry,
    journal_index := 0,
    saved_log := [],
    host_files := [],
    now := 0 }

/-! ### ACL / permission resolver -/

/-- The C function `set_permissions`: silent no-op when the inode number is
out of range or the mode has any bit outside
`PERMISSION_READ | PERMISSION_WRITE | PERMISSION_EXECUTE`. -/
def set_permissions (inode_number : Int) (permissions : Nat) (st : FSState) : FSState :=
  if inode_number < 0 ∨ inode_number ≥ (INODE_TABLE_SIZE : Int) then st
  else if permissions &&& INVALID_PERMISSION_MASK ≠ 0 then st
  else
    match st.inode_table[inode_number.toNat]? with
    | some inode =>
        let inode2 := { inode with mode := permissions }
        { st with inode_table := st.inode_table.set inode_number.toNat inode2 }
    | none => st

/-- The C function `get_permissions`. -/
def get_permissions (inode_number : Int) (st : FSState) : Nat :=
  if inode_number < 0 ∨ inode_number ≥ (INODE_TABLE_SIZE : Int) then 0
  else ((st.inode_table[inode_number.toNat]?).getD zeroInode).mode

/-- The C function `add_acl_entry`: no-op when the inode number is out of
range, the ACL already holds `MAX_ACL_ENTRIES` entries, or the permission
bits are invalid; otherwise appends the entry at position `acl_count`
without looking for an existing entry for the same user. -/
def add_acl_entry (inode_number : Int) (user_id : Int) (permissions : Nat)
    (st : FSState) : FSState :=
  if inode_number < 0 ∨ inode_number ≥ (INODE_TABLE_SIZE : Int) then st
  else
    match st.inode_table[inode_number.toNat]? with
    | none => st
    | some inode =>
      if inode.acl.length ≥ MAX_ACL_ENTRIES then st
      else if permissions &&& INVALID_PERMISSION_MASK ≠ 0 then st
      else
        let entry : ACL_Entry := { user_id := user_id, permissions := permissions }
        let inode2 := { inode with acl := inode.acl ++ [entry] }
        { st with inode_table := st.inode_table.set inode_number.toNat inode2 }

/-- The C function `remove_acl_entry`: removes the first entry for the user
(shifting the rest down with `memmove`); no-op when none matches. -/
def remove_acl_entry (inode_number : Int) (user_id : Int) (st : FSState) : FSState :=
  if inode_number < 0 ∨ inode_number ≥ (INODE_TABLE_SIZE : Int) then st
  else
    match st.inode_table[inode_number.toNat]? with
    | none => st
    | some inode =>
      let inode2 := { inode with acl := inode.acl.eraseP (fun e => e.user_id == user_id) }
      { st with inode_table := st.inode_table.set inode_number.toNat inode2 }

/-- The C function `get_acl_permissions`: permissions of the first ACL entry
for the user, `0` when none exists. -/
def get_acl_permissions (inode_number : Int) (user_id : Int) (st : FSState) : Nat :=
  if inode_number < 0 ∨ inode_number ≥ (INODE_TABLE_SIZE : Int) then 0
  else
    match ((st.inode_table[inode_number.toNat]?).getD zeroInode).acl.find?
        (fun e => e.user_id == user_id) with
    | some e => e.permissions
    | none => 0

/-- The C function `has_permission`: class bits selected by identity
(owner, then group, then other), ORed with the ACL override, compared
against the requested bits. -/
def has_permission (inode_number : Int) (user_id : Int)
    (required_permission : Nat) (st : FSState) : Bool :=
  if inode_number < 0 ∨ inode_number ≥ (INODE_TABLE_SIZE : Int) then false
  else
    let inode := (st.inode_table[inode_number.toNat]?).getD zeroInode
    let base :=
      if user_id = inode.owner_id then (inode.mode >>> 6) &&& 0x7
      else if user_id = inode.group_id then (inode.mode >>> 3) &&& 0x7
      else inode.mode &&& 0x7
    let permissions := base ||| get_acl_permissions inode_number user_id st
    (permissions &&& required_permission) == required_permission

/-! ### Inode table -/

/-- The field initialization block of `create_inode`: the contents of an
inode slot right after allocation (size stays `0`, timestamps are the
current time, every block reference is the `-1` sentinel, ACL is empty). -/
def fresh_inode (is_directory : Int) (mode : Nat) (owner_id group_id : Int)
    (now : Nat) : Inode :=
  { is_directory := is_directory, _size := 0,
    direct_blocks := List.replicate DIRECT_BLOCKS (-1), index_block := -1,
    mode := mode, atime := now, mtime := now, ctime := now,
    owner_id := owner_id, group_id := group_id, acl := [] }

/-- The state after `create_inode` succeeds on slot `i`: the slot is
overwritten with the freshly initialized inode and `free_inode_count` is
decremented. -/
def create_inode_result (is_directory : Int) (mode : Nat) (owner_id group_id : Int)
    (st : FSState) (i : Nat) : FSState :=
  let sb2 := { st.superblock with free_inode_count := st.superblock.free_inode_count - 1 }
  { st with
      inode_table := st.inode_table.set i (fresh_inode is_directory mode owner_id group_id st.now),
      superblock := sb2 }

/-- The C function `create_inode`: fails when `free_inode_count` is zero;
otherwise scans for the first slot with `_size == 0`, re-initializes every
field of that slot (timestamps to now, block references to `-1`, ACL
emptied) and decrements `free_inode_count`; fails when no zero-size slot
exists. -/
def create_inode (is_directory : Int) (mode : Nat) (owner_id group_id : Int)
    (st : FSState) : Int × FSState :=
  if st.superblock.free_inode_count = 0 then (-1, st)
  else
    match scanIdx (fun ino => ino._size == 0) st.inode_table with
    | some i => ((i : Int), create_inode_result is_directory mode owner_id group_id st i)
    | none => (-1, st)

/-- The direct-block loop of `delete_file` / `delete_directory`: frees every
direct block that is not `-1` and overwrites its reference with `-1`. -/
def free_blocks_loop (sb : Superblock) : List Int → Superblock × List Int
  | [] => (sb, [])
  | b :: bs =>
    if b ≠ -1 then
      let sb1 := free_block b sb
      let r := free_blocks_loop sb1 bs
      (r.1, (-1) :: r.2)
    else
      let r := free_blocks_loop sb bs
      (r.1, b :: r.2)

/-- The inode-release section of `delete_file` (the spec's `release_inode`):
frees all direct blocks and the index block if set, then resets size,
directory flag and times. The superblock's `free_inode_count` is not
touched. -/
def release_inode (sb : Superblock) (inode : Inode) (now : Nat) :
    Superblock × Inode :=
  let r := free_blocks_loop sb inode.direct_blocks
  let r2 :=
    if inode.index_block ≠ -1 then (free_index_block inode.index_block r.1, (-1 : Int))
    else (r.1, inode.index_block)
  let inode2 : Inode :=
    { inode with direct_blocks := r.2, index_block := r2.2,
                 is_directory := 0, _size := 0, mtime := now, ctime := now }
  (r2.1, inode2)

/-- The block references an inode holds that deletion must return: the
non-sentinel direct references followed by the index block when set. -/
def release_refs (inode : Inode) : List Int :=
  inode.direct_blocks.filter (fun b => b != -1) ++
    (if inode.index_block ≠ -1 then [inode.index_block] else [])

/-! ### File operations -/

/-- The C function `file_exists`: `access(TEST_FOLDER_PATH ++ path, F_OK)`. -/
def file_exists (path : String) (st : FSState) : Bool :=
  st.host_files.contains (TEST_FOLDER_PATH ++ path)

/-- The C function `create_file`. `host_create_ok` is the outcome of the
host-level `fopen` creating the file (`false` models a host I/O failure).
The inode allocation and the root-directory insertion happen before the
host `fopen`; the journal entry is added only after a successful `fopen`.
The C writes the new entry at `entries[entry_count]` and increments
`entry_count`, modelled as a list append. -/
def create_file (path : String) (is_directory : Int) (host_create_ok : Bool)
    (st : FSState) : Int × FSState :=
  if file_exists path st then (-1, st)
  else
    let full_path := TEST_FOLDER_PATH ++ path
    let r := create_inode is_directory 0o777 current_user_id current_group_id st
    if r.1 = -1 then (-1, r.2)
    else
      let st1 := { r.2 with root_directory :=
        { entries := r.2.root_directory.entries ++
            [{ name := path, inode_number := r.1 }] } }
      if host_create_ok then
        let st2 := { st1 with host_files := st1.host_files ++ [full_path] }
        (0, add_journal_entry CREATE (some path) none none st2)
      else (-1, st1)

/-- The C function `delete_file` (the GTK dialog parameter only drives
message boxes and is dropped): checks host existence, removes the host file
(modelled as succeeding), then releases the inode of the first matching
root-directory entry, removes that entry, and journals the deletion. Entry
inode numbers are non-negative in every reachable state; `Int.toNat` is the
array index. -/
def delete_file (filename : String) (st : FSState) : FSState :=
  let full_path := TEST_FOLDER_PATH ++ filename
  if (st.host_files.contains full_path) = false then st
  else
    let st1 := { st with host_files := st.host_files.erase full_path }
    let st2 :=
      match scanIdx (fun e => e.name == filename) st1.root_directory.entries with
      | some i =>
        match st1.root_directory.entries[i]? with
        | some entry =>
          match st1.inode_table[entry.inode_number.toNat]? with
          | some inode =>
            let r := release_inode st1.superblock inode st1.now
            { st1 with superblock := r.1,
                       inode_table := st1.inode_table.set entry.inode_number.toNat r.2,
                       root_directory :=
                         { entries := st1.root_directory.entries.eraseIdx i } }
          | none =>
            { st1 with root_directory :=
                { entries := st1.root_directory.entries.eraseIdx i } }
        | none => st1
      | none => st1
    add_journal_entry DELETE (some filename) none none st2

/-- The C function `rename_file`: no-op when the target name exists on the
host or the host `rename` fails (source missing); otherwise renames the
host file, updates the first matching root-directory entry in place, and
journals the rename. -/
def rename_file (old_name new_name : String) (st : FSState) : FSState :=
  if file_exists new_name st then st
  else
    let old_path := TEST_FOLDER_PATH ++ old_name
    let new_path := TEST_FOLDER_PATH ++ new_name
    if (st.host_files.contains old_path) = false then st
    else
      let st1 := { st with host_files := (st.host_files.erase old_path) ++ [new_path] }
      let st2 :=
        match scanIdx (fun e => e.name == old_name) st1.root_directory.entries with
        | some i =>
          match st1.root_directory.entries[i]? with
          | some entry =>
            { st1 with root_directory :=
                { entries := st1.root_directory.entries.set i
                    ({ entry with name := new_name }) } }
          | none => st1
        | none => st1
      add_journal_entry RENAME (some old_name) (some new_name) none st2

/-! ### Journal replay -/

/-- One iteration of the `replay_journal` loop: reads the current journal
slot `i`, skips empty entries, and dispatches on the operation code exactly
as the C `switch` (CREATE, DELETE, MODIFY, RENAME; everything else —
including READ, CHANGE_PERMISSIONS and the `-1` produced by
`string_to_operation` on an unknown tag — falls to the warning-only
default). The MODIFY case is a host `fopen(filename, "w")` plus a write of
the payload: on the name-set model of the host it creates the file if
missing. -/
def replay_step (st : FSState) (i : Nat) : FSState :=
  let entry := (st.journal[i]?).getD emptyJournalEntry
  if entry.timestamp = 0 then st
  else if entry.operation = CREATE then (create_file entry.filename 0 true st).2
  else if entry.operation = DELETE then delete_file entry.filename st
  else if entry.operation = MODIFY then
    if st.host_files.contains entry.filename then st
    else { st with host_files := st.host_files ++ [entry.filename] }
  else if entry.operation = RENAME then rename_file entry.filename entry.new_filename st
  else st

/-- The C function `replay_journal`: applies `replay_step` for every slot
index in order. -/
def replay_journal (st : FSState) : FSState :=
  (List.range JOURNAL_SIZE).foldl replay_step st

/-! ### Spec-side definitions and concrete scenario states -/

/-- Permission resolution as worded by the spec, per inode: base bits by
identity class (owner bits when the user id equals `owner_id`, else group
bits when it equals `group_id`, else other bits), ORed with the ACL entry
found for that exact user id (if any); true iff the OR result covers every
bit of the requested permission. Stated independently of `has_permission`
to compare the two. -/
def resolve_spec (inode : Inode) (user_id : Int) (requested_permission : Nat) : Bool :=
  let base :=
    if user_id = inode.owner_id then (inode.mode >>> 6) &&& 0x7
    else if user_id = inode.group_id then (inode.mode >>> 3) &&& 0x7
    else inode.mode &&& 0x7
  let combined := base |||
    (match inode.acl.find? (fun e => e.user_id == user_id) with
     | some e => e.permissions
     | none => 0)
  (combined &&& requested_permission) == requested_permission

/-- Concrete state for the ACL-gated access scenario: inode `0` has mode
`0644` and owner `11`; everything else is as freshly initialized. -/
def acl_scenario_state : FSState :=
  let inode644 : Inode := { zeroInode with mode := 0o644, owner_id := 11 }
  { init_file_system with inode_table :=
      (List.replicate INODE_TABLE_SIZE zeroInode).set 0 inode644 }

/-- The scenario inode after a READ ACL entry for user `99` has been added:
mode `0644`, owner `11`, one ACL entry `(99, READ)`. -/
def acl_read_99_inode : Inode :=
  let e : ACL_Entry := { user_id := 99, permissions := PERMISSION_READ }
  { zeroInode with mode := 0o644, owner_id := 11, acl := [e] }

/-- A state whose inode table is all-free (every slot has size `0`) while
the superblock's `free_inode_count` is already down to `1` — such states are
reached after 127 creations, since deletion never restores the counter. -/
def c6_state : FSState :=
  { init_file_system with superblock := { init_superblock with free_inode_count := 1 } }

/-- A bitmap with blocks `5`, `7` and `9` marked used. -/
def c7_bitmap : List Nat := (((List.replicate NUM_BLOCKS 0).set 5 1).set 7 1).set 9 1

/-- A superblock holding `c7_bitmap` with the matching free count. -/
def c7_sb : Superblock :=
  { init_superblock with free_blocks := 1021, free_block_bitmap := c7_bitmap }

/-- An inode holding direct blocks `5` and `7` and index block `9`. -/
def c7_inode : Inode :=
  let dbs : List Int := [5, 7, -1, -1, -1, -1, -1, -1, -1, -1, -1, -1]
  { zeroInode with _size := 100, direct_blocks := dbs, index_block := 9 }

/-- Appending a list of `(operation, filename, new_filename?, data?)`
argument tuples through `add_journal_entry`, in order. -/
def add_journal_entries (es : List (Int × String × Option String × Option String))
    (st : FSState) : FSState :=
  es.foldl (fun s e => add_journal_entry e.1 (some e.2.1) e.2.2.1 e.2.2.2 s) st

/-- The journal entry `add_journal_entry` writes for argument tuple `e`
(operation, filename, optional new filename, optional data) at time `t`. -/
def stamp_entry (t : Nat) (e : Int × String × Option String × Option String) :
    JournalEntry :=
  { operation := e.1, filename := e.2.1, new_filename := (e.2.2.1).getD "",
    data := (e.2.2.2).getD "", timestamp := t }

/-- The fresh state with the clock set to `t`: an empty journal at ring
index `0`. -/
def journal_start (t : Nat) : FSState :=
  { init_file_system with now := t }

/-- Concrete journal-append argument tuples for the wraparound scenario. -/
def c10_arg1 : Int × String × Option String × Option String := (CREATE, "f", none, none)

def c10_arg2 : Int × String × Option String × Option String := (DELETE, "g", none, none)

def c10_es1 : List (Int × String × Option String × Option String) :=
  List.replicate JOURNAL_SIZE c10_arg1

def c10_es2 : List (Int × String × Option String × Option String) :=
  List.replicate 5 c10_arg2

/-- Direct execution of a single CREATE operation from a fresh session at
time `100`: the state after `create_file("a.txt")` succeeds. -/
def c2_direct : FSState := (create_file "a.txt" 0 true (journal_start 100)).2

/-- A fresh session whose journal has been reloaded (`init_journal`) from the
log persisted by the direct execution. -/
def c2_reloaded : FSState :=
  { journal_start 100 with
      journal := (init_journal c2_direct.saved_log).1,
      journal_index := (init_journal c2_direct.saved_log).2 }

/-- The journal entry that reloading the persisted CREATE line produces:
`string_to_operation` does not recognize the tag `CREATED` written by
`operation_to_string`, so the operation comes back as `-1`. -/
def c2_bad_entry : JournalEntry :=
  { operation := -1, filename := "a.txt", new_filename := "", data := "",
    timestamp := 100 }

/-! ## Lemmas about the generic scan -/

theorem scanIdx_lt_length {p : α → Bool} {l : List α} {i : Nat}
    (h : scanIdx p l = some i) : i < l.length := by
  induction l generalizing i with
  | nil => simp [scanIdx] at h
  | cons a as ih =>
    by_cases hp : p a
    · simp [scanIdx, hp] at h
      simp
      omega
    · simp [scanIdx, hp] at h
      obtain ⟨j, hj, rfl⟩ := h
      have := ih hj
      simp
      omega

theorem scanIdx_get {p : α → Bool} {l : List α} {i : Nat}
    (h : scanIdx p l = some i) : ∃ a, l[i]? = some a ∧ p a = true := by
  induction l generalizing i with
  | nil => simp [scanIdx] at h
  | cons a as ih =>
    by_cases hp : p a
    · simp [scanIdx, hp] at h
      subst h
      exact ⟨a, by simp, hp⟩
    · simp [scanIdx, hp] at h
      obtain ⟨j, hj, rfl⟩ := h
      simpa using ih hj

theorem scanIdx_min {p : α → Bool} {l : List α} {i : Nat}
    (h : scanIdx p l = some i) :
    ∀ j, j < i → ∀ a, l[j]? = some a → p a = false := by
  induction l generalizing i with
  | nil => simp [scanIdx] at h
  | cons a as ih =>
    by_cases hp : p a
    · simp [scanIdx, hp] at h
      omega
    · simp [scanIdx, hp] at h
      obtain ⟨k, hk, rfl⟩ := h
      intro j hj b hb
      cases j with
      | zero =>
        simp at hb
        subst hb
        simpa using hp
      | succ j =>
        simp at hb
        exact ih hk j (by omega) b hb

theorem scanIdx_none {p : α → Bool} {l : List α}
    (h : scanIdx p l = none) : ∀ a ∈ l, p a = false := by
  induction l with
  | nil => simp
  | cons a as ih =>
    by_cases hp : p a
    · simp [scanIdx, hp] at h
    · simp [scanIdx, hp] at h
      intro b hb
      rcases List.mem_cons.mp hb with hb | hb
      · subst hb; simpa using hp
      · exact ih h b hb

theorem scanIdx_eq_none {p : α → Bool} {l : List α}
    (h : ∀ a ∈ l, p a = false) : scanIdx p l = none := by
  induction l with
  | nil => rfl
  | cons a as ih =>
    have hpa := h a (by simp)
    simp [scanIdx, hpa]
    exact ih (fun b hb => h b (by simp [hb]))

theorem scanIdx_set_of_scanIdx {p : α → Bool} {l : List α} {i : Nat}
    (h : scanIdx p l = some i) {v : α} (hv : p v = true) :
    scanIdx p (l.set i v) = some i := by
  induction l generalizing i with
  | nil => simp [scanIdx] at h
  | cons a as ih =>
    by_cases hp : p a
    · simp [scanIdx, hp] at h
      subst h
      simp [List.set, scanIdx, hv]
    · simp [scanIdx, hp] at h
      obtain ⟨j, hj, rfl⟩ := h
      simp [List.set, scanIdx, hp]
      exact ih hj

/-! ## Small getD/set facts used throughout -/

theorem getD_set_self {l : List α} {i : Nat} {v d : α} (h : i < l.length) :
    (l.set i v).getD i d = v := by
  induction l generalizing i with
  | nil => simp at h
  | cons a as ih =>
    cases i with
    | zero => simp [List.set, List.getD]
    | succ i =>
      simp at h
      simpa [List.set, List.getD] using ih (by omega)

theorem getD_set_ne {l : List α} {i j : Nat} {v d : α} (h : i ≠ j) :
    (l.set i v).getD j d = l.getD j d := by
  induction l generalizing i j with
  | nil => simp
  | cons a as ih =>
    cases i with
    | zero =>
      cases j with
      | zero => omega
      | succ j => simp [List.set, List.getD]
    | succ i =>
      cases j with
      | zero => simp [List.set, List.getD]
      | succ j => simpa [List.set, List.getD] using ih (by omega)

theorem getD_eq_of_getElem? {l : List α} {i : Nat} {v d : α}
    (h : l[i]? = some v) : l.getD i d = v := by
  simp [List.getD, h]

theorem getElem?_set_self {l : List α} {i : Nat} {v : α} (h : i < l.length) :
    (l.set i v)[i]? = some v := by
  induction l generalizing i with
  | nil => simp at h
  | cons a as ih =>
    cases i with
    | zero => simp [List.set]
    | succ i =>
      simp at h
      simpa [List.set] using ih (by omega)

theorem getElem?_set_ne {l : List α} {i j : Nat} {v : α} (h : i ≠ j) :
    (l.set i v)[j]? = l[j]? := by
  induction l generalizing i j with
  | nil => simp
  | cons a as ih =>
    cases i with
    | zero =>
      cases j with
      | zero => omega
      | succ j => simp [List.set]
    | succ i =>
      cases j with
      | zero => simp [List.set]
      | succ j => simpa [List.set] using ih (by omega)

theorem getElem?_isSome_of_lt {l : List α} {i : Nat} (h : i < l.length) :
    ∃ v, l[i]? = some v := by
  induction l generalizing i with
  | nil => simp at h
  | cons a as ih =>
    cases i with
    | zero => exact ⟨a, by simp⟩
    | succ i =>
      simp at h
      simpa using ih (by omega)

theorem lt_length_of_getElem?_eq_some {l : List α} {i : Nat} {v : α}
    (h : l[i]? = some v) : i < l.length := by
  induction l generalizing i with
  | nil => simp at h
  | cons a as ih =>
    cases i with
    | zero => simp
    | succ i =>
      simp at h
      have := ih h
      simp
      omega

/-! ## Counting lemmas for the bitmap -/

theorem countP_set_of_mem_eq {l : List Nat} {i : Nat}
    (h : l[i]? = some 0) :
    countFree (l.set i 1) + 1 = countFree l := by
  induction l generalizing i with
  | nil => simp at h
  | cons a as ih =>
    cases i with
    | zero =>
      simp at h
      subst h
      simp [countFree, List.countP_cons]
    | succ i =>
      simp at h
      have := ih h
      simp only [countFree, List.set, List.countP_cons] at *
      omega

theorem countP_set_of_mem_used {l : List Nat} {i : Nat}
    (h : l[i]? = some 1) :
    countFree (l.set i 0) = countFree l + 1 := by
  induction l generalizing i with
  | nil => simp at h
  | cons a as ih =>
    cases i with
    | zero =>
      simp at h
      subst h
      simp [countFree, List.countP_cons]
    | succ i =>
      simp at h
      have := ih h
      simp only [countFree, List.set, List.countP_cons] at *
      omega

/-- Helper: a `getD` with default `0` returning `1` implies an in-range
`getElem?`. -/
theorem getElem?_of_getD_eq_one {l : List Nat} {i : Nat}
    (h : l.getD i 0 = 1) : l[i]? = some 1 := by
  rcases hl : l[i]? with _ | v
  · simp [List.getD, hl] at h
  · simp [List.getD, hl] at h
    subst h
    rfl

/-- Helper: the bitmap produced by `init_file_system` is all-free. -/
theorem countFree_replicate_zero (n : Nat) :
    countFree (List.replicate n 0) = n := by
  induction n with
  | zero => rfl
  | succ n ih => simp [countFree, List.replicate, List.countP_cons] at *; omega

/-- Helper: `allocate_block` preserves the difference between `free_blocks`
and the number of bitmap slots marked free. -/
theorem allocate_block_preserves_diff (sb : Superblock) :
    (allocate_block sb).2.free_blocks -
        (countFree (allocate_block sb).2.free_block_bitmap : Int) =
      sb.free_blocks - (countFree sb.free_block_bitmap : Int) := by
  rcases hscan : scanIdx (fun b => b == 0) sb.free_block_bitmap with _ | i
  · simp [allocate_block, hscan]
  · obtain ⟨a, ha, hpa⟩ := scanIdx_get hscan
    have ha0 : a = 0 := by simpa using hpa
    subst ha0
    have hcount := countP_set_of_mem_eq (l := sb.free_block_bitmap) (i := i) ha
    simp only [allocate_block, hscan]
    omega

/-- Helper: `free_block` preserves the difference between `free_blocks` and
the number of bitmap slots marked free. -/
theorem free_block_preserves_diff (n : Int) (sb : Superblock) :
    (free_block n sb).free_blocks -
        (countFree (free_block n sb).free_block_bitmap : Int) =
      sb.free_blocks - (countFree sb.free_block_bitmap : Int) := by
  rw [free_block]
  by_cases hrange : n < 0 ∨ n ≥ (NUM_BLOCKS : Int)
  · rw [if_pos hrange]
  · rw [if_neg hrange]
    by_cases hbit : sb.free_block_bitmap.getD n.toNat 0 = 1
    · rw [if_pos hbit]
      have hget := getElem?_of_getD_eq_one hbit
      have hcount := countP_set_of_mem_used (l := sb.free_block_bitmap) (i := n.toNat) hget
      simp only []
      omega
    · rw [if_neg hbit]

/-! ## Claim C1 -/

/-- CLAIM C1 fails as stated: immediately after initialization the
superblock's `free_blocks` counter is `NUM_BLOCKS - 1 = 1023` while all
`1024` bitmap slots are marked free, so the counter does not equal the
number of free blocks in the bitmap. -/
theorem claim_C1_counterexample :
    ¬ (init_superblock.free_blocks =
        (countFree init_superblock.free_block_bitmap : Int)) := by
  intro h
  have hc : countFree init_superblock.free_block_bitmap = NUM_BLOCKS :=
    countFree_replicate_zero NUM_BLOCKS
  rw [hc] at h
  simp only [init_superblock] at h
  omega

/-- CLAIM C1, amended: immediately after initialization `free_blocks` is one
less than the number of bitmap slots marked free; `allocate_block` and
`free_block` preserve the difference between `free_blocks` and that count
(hence preserve the stated equality wherever it holds); and `allocate_block`
never returns an index already marked used — any non-negative index it
returns was marked free before the call and is marked used after it. -/
theorem claim_C1_amended :
    (init_superblock.free_blocks + 1 =
        (countFree init_superblock.free_block_bitmap : Int)) ∧
    (∀ sb : Superblock,
      (allocate_block sb).2.free_blocks -
          (countFree (allocate_block sb).2.free_block_bitmap : Int) =
        sb.free_blocks - (countFree sb.free_block_bitmap : Int)) ∧
    (∀ (n : Int) (sb : Superblock),
      (free_block n sb).free_blocks -
          (countFree (free_block n sb).free_block_bitmap : Int) =
        sb.free_blocks - (countFree sb.free_block_bitmap : Int)) ∧
    (∀ sb : Superblock, 0 ≤ (allocate_block sb).1 →
      sb.free_block_bitmap.getD (allocate_block sb).1.toNat 0 = 0 ∧
      (allocate_block sb).2.free_block_bitmap.getD (allocate_block sb).1.toNat 0 = 1) := by
  refine ⟨?_, allocate_block_preserves_diff, free_block_preserves_diff, ?_⟩
  · simp only [init_superblock]
    rw [countFree_replicate_zero NUM_BLOCKS]
    omega
  intro sb hpos
  rcases hscan : scanIdx (fun b => b == 0) sb.free_block_bitmap with _ | i
  · simp [allocate_block, hscan] at hpos
  · obtain ⟨a, ha, hpa⟩ := scanIdx_get hscan
    have ha0 : a = 0 := by simpa using hpa
    subst ha0
    have hlt := scanIdx_lt_length hscan
    constructor
    · simp only [allocate_block, hscan, Int.toNat_ofNat]
      exact getD_eq_of_getElem? ha
    · simp only [allocate_block, hscan, Int.toNat_ofNat]
      exact getD_set_self hlt

/-- Witness for CLAIM C1's amended theorem: instantiating the
allocate-returns-a-free-index part at the freshly initialized superblock,
where `allocate_block` returns block `0`. -/
theorem claim_C1_amended_witness :
    0 ≤ (allocate_block init_superblock).1 ∧
    init_superblock.free_block_bitmap.getD (allocate_block init_superblock).1.toNat 0 = 0 ∧
    (allocate_block init_superblock).2.free_block_bitmap.getD
      (allocate_block init_superblock).1.toNat 0 = 1 := by
  have h0 : (allocate_block init_superblock).1 = 0 := rfl
  have hpos : 0 ≤ (allocate_block init_superblock).1 := by rw [h0]
  exact ⟨hpos, (claim_C1_amended.2.2.2 init_superblock hpos).1,
    (claim_C1_amended.2.2.2 init_superblock hpos).2⟩

/-! ## Claim C3 -/

set_option maxRecDepth 8000 in
/-- CLAIM C3: for every in-range inode number, user id and requested
permission, `has_permission` computes exactly the spec's resolution — base
bits selected by identity class (owner, else group, else other), ORed with
the ACL entry found for that exact user id, true iff the result covers
every requested bit — and concretely: an inode with mode `0644` and owner
`11` denies WRITE to user `99`, and grants it after
`add_acl_entry(inode, 99, WRITE)`. -/
theorem claim_C3_resolution :
    (∀ (st : FSState) (n u : Int) (r : Nat),
      0 ≤ n → n < (INODE_TABLE_SIZE : Int) →
      has_permission n u r st =
        resolve_spec ((st.inode_table[n.toNat]?).getD zeroInode) u r) ∧
    has_permission 0 99 PERMISSION_WRITE acl_scenario_state = false ∧
    has_permission 0 99 PERMISSION_WRITE
      (add_acl_entry 0 99 PERMISSION_WRITE acl_scenario_state) = true := by
  refine ⟨?_, by decide, by decide⟩
  intro st n u r h0 hlt
  have hcond : ¬ (n < 0 ∨ n ≥ (INODE_TABLE_SIZE : Int)) := by omega
  simp only [has_permission, resolve_spec, get_acl_permissions, if_neg hcond]

set_option maxRecDepth 8000 in
/-- Witness for CLAIM C3: the general resolution equation instantiated at the
scenario state, inode `0`, user `99`, requested permission WRITE. -/
theorem claim_C3_resolution_witness :
    (0 : Int) ≤ 0 ∧ (0 : Int) < (INODE_TABLE_SIZE : Int) ∧
    has_permission 0 99 PERMISSION_WRITE acl_scenario_state =
      resolve_spec ((acl_scenario_state.inode_table[(0 : Int).toNat]?).getD zeroInode)
        99 PERMISSION_WRITE :=
  ⟨by decide, by decide,
    claim_C3_resolution.1 acl_scenario_state 0 99 PERMISSION_WRITE (by decide) (by decide)⟩

/-! ## Claim C9 -/

set_option maxRecDepth 8000 in
/-- CLAIM C9 fails as stated: `0644` is a valid mode under the 9-bit
octal-conventional encoding and inode `0` is in range, yet
`set_permissions(0, 0644)` is a no-op — the C validity check masks against
the complement of the 3-bit `PERMISSION_READ|WRITE|EXECUTE` set, so every
mode above `07` is rejected. -/
theorem claim_C9_counterexample :
    set_permissions 0 0o644 init_file_system = init_file_system ∧
    get_permissions 0 (set_permissions 0 0o644 init_file_system) ≠ 0o644 := by
  constructor
  · rfl
  · decide

/-- CLAIM C9, amended: `set_permissions` is a silent no-op whenever the mode
contains any bit outside the 3-bit set {read, write, execute} (so all 9-bit
modes such as `0644` are rejected, not accepted) or the inode number is out
of range; for a mode within those three bits and an in-range inode it sets
that inode's mode to the given value and leaves every other inode slot
unchanged. -/
theorem claim_C9_amended :
    (∀ (st : FSState) (n : Int) (mode : Nat),
      (n < 0 ∨ n ≥ (INODE_TABLE_SIZE : Int) ∨ mode &&& INVALID_PERMISSION_MASK ≠ 0) →
      set_permissions n mode st = st) ∧
    (∀ (st : FSState) (n : Int) (mode : Nat),
      0 ≤ n → n < (INODE_TABLE_SIZE : Int) → mode &&& INVALID_PERMISSION_MASK = 0 →
      n.toNat < st.inode_table.length →
      get_permissions n (set_permissions n mode st) = mode ∧
      (∀ m : Nat, m ≠ n.toNat →
        (set_permissions n mode st).inode_table[m]? = st.inode_table[m]?)) := by
  constructor
  · intro st n mode h
    rw [set_permissions]
    by_cases h1 : n < 0 ∨ n ≥ (INODE_TABLE_SIZE : Int)
    · rw [if_pos h1]
    · rw [if_neg h1]
      have h2 : mode &&& INVALID_PERMISSION_MASK ≠ 0 := by tauto
      rw [if_pos h2]
  · intro st n mode h0 hlt hvalid hlen
    have h1 : ¬ (n < 0 ∨ n ≥ (INODE_TABLE_SIZE : Int)) := by omega
    have h2 : ¬ (mode &&& INVALID_PERMISSION_MASK ≠ 0) := by simpa using hvalid
    obtain ⟨inode, hin⟩ := getElem?_isSome_of_lt hlen
    constructor
    · rw [get_permissions, if_neg h1]
      simp only [set_permissions, if_neg h1, if_neg h2, hin]
      rw [getElem?_set_self hlen]
      rfl
    · intro m hm
      simp only [set_permissions, if_neg h1, if_neg h2, hin]
      exact getElem?_set_ne (fun h => hm h.symm)

set_option maxRecDepth 8000 in
/-- Witness for CLAIM C9's amended theorem: setting mode `5` (read+execute,
within the accepted 3-bit range) on inode `0` of the fresh state makes
`get_permissions` read back `5`. -/
theorem claim_C9_amended_witness :
    (0 : Int) ≤ 0 ∧ (5 &&& INVALID_PERMISSION_MASK) = 0 ∧
    get_permissions 0 (set_permissions 0 5 init_file_system) = 5 :=
  ⟨le_refl 0, by decide,
    (claim_C9_amended.2 init_file_system 0 5 (by decide) (by decide) (by decide)
      (by simp [init_file_system, INODE_TABLE_SIZE])).1⟩

/-! ## Claim C8 -/

set_option maxRecDepth 8000 in
/-- CLAIM C8 fails as stated: `add_acl_entry` never looks for an existing
entry for the same user, so adding user `99` twice on the same inode leaves
two ACL entries with `user_id = 99`. -/
theorem claim_C8_counterexample :
    (((add_acl_entry 0 99 PERMISSION_WRITE
          (add_acl_entry 0 99 PERMISSION_READ acl_scenario_state)).inode_table[0]?.getD
        zeroInode).acl.filter (fun e => e.user_id == 99)).length = 2 := by
  decide

/-- CLAIM C8, amended: `add_acl_entry` appends unconditionally whenever the
inode number is in range, the ACL holds fewer than `MAX_ACL_ENTRIES`
entries and the permission bits are valid — even when an entry for the same
`user_id` is already present — so the number of entries for that user grows
by one and duplicate user ids can occur; per-inode ACL user uniqueness is
not an invariant of the operations. -/
theorem claim_C8_amended :
    ∀ (st : FSState) (n u : Int) (perms : Nat) (inode : Inode),
      0 ≤ n → n < (INODE_TABLE_SIZE : Int) →
      st.inode_table[n.toNat]? = some inode →
      inode.acl.length < MAX_ACL_ENTRIES →
      perms &&& INVALID_PERMISSION_MASK = 0 →
      ((add_acl_entry n u perms st).inode_table[n.toNat]?).getD zeroInode =
        { inode with acl := inode.acl ++ [{ user_id := u, permissions := perms }] } ∧
      ((((add_acl_entry n u perms st).inode_table[n.toNat]?).getD zeroInode).acl.countP
          (fun e => e.user_id == u)) =
        inode.acl.countP (fun e => e.user_id == u) + 1 := by
  intro st n u perms inode h0 hlt hin hroom hvalid
  have h1 : ¬ (n < 0 ∨ n ≥ (INODE_TABLE_SIZE : Int)) := by omega
  have hroom' : ¬ (inode.acl.length ≥ MAX_ACL_ENTRIES) := by omega
  have hvalid' : ¬ (perms &&& INVALID_PERMISSION_MASK ≠ 0) := by simpa using hvalid
  have hlen : n.toNat < st.inode_table.length := lt_length_of_getElem?_eq_some hin
  have hset : (add_acl_entry n u perms st).inode_table[n.toNat]? =
      some ({ inode with acl := inode.acl ++ [{ user_id := u, permissions := perms }] }) := by
    simp only [add_acl_entry, if_neg h1, hin, if_neg hroom', if_neg hvalid']
    exact getElem?_set_self hlen
  refine ⟨by rw [hset]; rfl, ?_⟩
  rw [hset]
  simp [List.countP_append, List.countP_cons]

set_option maxRecDepth 8000 in
/-- Witness for CLAIM C8's amended theorem: adding WRITE for user `99` on
the scenario inode that already carries a READ entry for user `99` yields
two entries for that user. -/
theorem claim_C8_amended_witness :
    ((add_acl_entry 0 99 PERMISSION_READ acl_scenario_state).inode_table[(0 : Int).toNat]? =
      some acl_read_99_inode) ∧
    ((((add_acl_entry 0 99 PERMISSION_WRITE
          (add_acl_entry 0 99 PERMISSION_READ acl_scenario_state)).inode_table[(0 : Int).toNat]?).getD
        zeroInode).acl.countP (fun e => e.user_id == 99) =
      acl_read_99_inode.acl.countP (fun e => e.user_id == 99) + 1) := by
  have happ := claim_C8_amended
    (add_acl_entry 0 99 PERMISSION_READ acl_scenario_state) 0 99 PERMISSION_WRITE
    acl_read_99_inode (by decide) (by decide) (by decide) (by decide) (by decide)
  exact ⟨by decide, happ.2⟩

/-! ## Helper lemmas for create_inode -/

theorem create_inode_count_zero {st : FSState} (d : Int) (mode : Nat) (o g : Int)
    (hc : st.superblock.free_inode_count = 0) :
    create_inode d mode o g st = (-1, st) := by
  rw [create_inode, if_pos hc]

theorem create_inode_no_slot {st : FSState} (d : Int) (mode : Nat) (o g : Int)
    (hscan : scanIdx (fun ino => ino._size == 0) st.inode_table = none) :
    create_inode d mode o g st = (-1, st) := by
  rw [create_inode]
  by_cases hc : st.superblock.free_inode_count = 0
  · rw [if_pos hc]
  · rw [if_neg hc]
    simp only [hscan]

theorem create_inode_success {st : FSState} {i : Nat} (d : Int) (mode : Nat) (o g : Int)
    (hc : st.superblock.free_inode_count ≠ 0)
    (hscan : scanIdx (fun ino => ino._size == 0) st.inode_table = some i) :
    create_inode d mode o g st = ((i : Int), create_inode_result d mode o g st i) := by
  rw [create_inode, if_neg hc]
  simp only [hscan]

theorem create_inode_cases (d : Int) (mode : Nat) (o g : Int) (st : FSState) :
    (st.superblock.free_inode_count = 0 ∧ create_inode d mode o g st = (-1, st)) ∨
    (st.superblock.free_inode_count ≠ 0 ∧
      scanIdx (fun ino => ino._size == 0) st.inode_table = none ∧
      create_inode d mode o g st = (-1, st)) ∨
    (∃ i, st.superblock.free_inode_count ≠ 0 ∧
      scanIdx (fun ino => ino._size == 0) st.inode_table = some i ∧
      create_inode d mode o g st = ((i : Int), create_inode_result d mode o g st i)) := by
  by_cases hc : st.superblock.free_inode_count = 0
  · exact Or.inl ⟨hc, create_inode_count_zero d mode o g hc⟩
  · rcases hscan : scanIdx (fun ino => ino._size == 0) st.inode_table with _ | i
    · exact Or.inr (Or.inl ⟨hc, hscan, create_inode_no_slot d mode o g hscan⟩)
    · exact Or.inr (Or.inr ⟨i, hc, hscan, create_inode_success d mode o g hc hscan⟩)

/-! ## Claim C5 -/

set_option maxRecDepth 8000 in
/-- CLAIM C5: `create_inode` returns `-1` when `free_inode_count` is zero or
no zero-size slot exists; otherwise it allocates the first slot whose size
is `0`, initializes all its fields (timestamps to now, block references to
the `-1` sentinel, ACL empty) and decrements the free-inode count, leaving
other slots unchanged; and concretely, `create_inode(0, 0777, 11, 10)` on
the freshly initialized table returns inode `0`, and after releasing inode
`0` (freeing its blocks and zeroing its size) a subsequent `create_inode`
again returns inode `0`. -/
theorem claim_C5_create_inode :
    (∀ (st : FSState) (d : Int) (mode : Nat) (o g : Int),
      (st.superblock.free_inode_count = 0 ∨ ∀ ino ∈ st.inode_table, ino._size ≠ 0) →
      create_inode d mode o g st = (-1, st)) ∧
    (∀ (st : FSState) (d : Int) (mode : Nat) (o g : Int) (i : Nat),
      st.superblock.free_inode_count ≠ 0 →
      scanIdx (fun ino => ino._size == 0) st.inode_table = some i →
      create_inode d mode o g st = ((i : Int), create_inode_result d mode o g st i) ∧
      (create_inode_result d mode o g st i).inode_table[i]? =
        some (fresh_inode d mode o g st.now) ∧
      (create_inode_result d mode o g st i).superblock.free_inode_count =
        st.superblock.free_inode_count - 1 ∧
      (∀ j, j ≠ i → (create_inode_result d mode o g st i).inode_table[j]? =
        st.inode_table[j]?) ∧
      (∀ j, j < i → ∀ ino, st.inode_table[j]? = some ino → ino._size ≠ 0)) ∧
    ((create_inode 0 0o777 11 10 init_file_system).1 = 0 ∧
      ((create_inode 0 0o777 11 10 init_file_system).2.inode_table[0]?).getD zeroInode =
        fresh_inode 0 0o777 11 10 0 ∧
      (let st1 := (create_inode 0 0o777 11 10 init_file_system).2
       let r := release_inode st1.superblock (st1.inode_table[0]?.getD zeroInode) st1.now
       let st2 := { st1 with superblock := r.1, inode_table := st1.inode_table.set 0 r.2 }
       (st2.inode_table[0]?.getD zeroInode)._size = 0 ∧
         (create_inode 0 0o777 11 10 st2).1 = 0)) := by
  refine ⟨?_, ?_, ?_⟩
  · intro st d mode o g h
    rcases h with h | h
    · exact create_inode_count_zero d mode o g h
    · apply create_inode_no_slot
      apply scanIdx_eq_none
      intro a ha
      simpa using h a ha
  · intro st d mode o g i hc hscan
    have hlt := scanIdx_lt_length hscan
    refine ⟨create_inode_success d mode o g hc hscan, ?_, rfl, ?_, ?_⟩
    · simp only [create_inode_result]
      exact getElem?_set_self hlt
    · intro j hj
      simp only [create_inode_result]
      exact getElem?_set_ne (fun h => hj h.symm)
    · intro j hj ino hino
      have := scanIdx_min hscan j hj ino hino
      simpa using this
  · exact ⟨rfl, rfl, rfl, rfl⟩

/-- Witness for CLAIM C5: the success case instantiated at the freshly
initialized state, where the first zero-size slot is slot `0`. -/
theorem claim_C5_create_inode_witness :
    init_file_system.superblock.free_inode_count ≠ 0 ∧
    scanIdx (fun ino => ino._size == 0) init_file_system.inode_table = some 0 ∧
    create_inode 0 0o777 11 10 init_file_system =
      (0, create_inode_result 0 0o777 11 10 init_file_system 0) := by
  have h := claim_C5_create_inode.2.1 init_file_system 0 0o777 11 10 0 (by decide) rfl
  exact ⟨by decide, rfl, h.1⟩

/-! ## Claim C6 -/

set_option maxRecDepth 8000 in
/-- CLAIM C6 fails as stated: a state can have every inode slot free
(size `0`) while `free_inode_count` is already `1`; the first `create_inode`
succeeds with slot `0`, but the second consecutive call hits the
`free_inode_count == 0` guard and returns `-1` instead of the same slot. -/
theorem claim_C6_counterexample :
    (c6_state.inode_table.any (fun ino => ino._size == 0)) = true ∧
    (create_inode 0 0o777 11 10 c6_state).1 = 0 ∧
    (create_inode 0 0o777 11 10 (create_inode 0 0o777 11 10 c6_state).2).1 = -1 := by
  exact ⟨by decide, rfl, rfl⟩

/-- CLAIM C6, amended: a just-allocated slot still has size `0`, so it still
satisfies the free-slot predicate; consequently, whenever the free-inode
counter is at least `2` (so that the second call does not hit the
`free_inode_count == 0` guard) and a zero-size slot exists, two consecutive
`create_inode` calls return the same slot index — the second overwriting the
first allocation's metadata — and the counter is decremented on each call.
With only one count left the second call fails even though free slots
remain. -/
theorem claim_C6_amended :
    ∀ (st : FSState) (d1 : Int) (m1 : Nat) (o1 g1 : Int) (d2 : Int) (m2 : Nat)
      (o2 g2 : Int) (i : Nat),
      2 ≤ st.superblock.free_inode_count →
      scanIdx (fun ino => ino._size == 0) st.inode_table = some i →
      (create_inode d1 m1 o1 g1 st).1 = (i : Int) ∧
      (((create_inode d1 m1 o1 g1 st).2.inode_table[i]?).getD zeroInode)._size = 0 ∧
      (create_inode d2 m2 o2 g2 (create_inode d1 m1 o1 g1 st).2).1 = (i : Int) ∧
      (create_inode d2 m2 o2 g2 (create_inode d1 m1 o1 g1 st).2).2.superblock.free_inode_count =
        st.superblock.free_inode_count - 2 ∧
      (create_inode d2 m2 o2 g2 (create_inode d1 m1 o1 g1 st).2).2.inode_table[i]? =
        some (fresh_inode d2 m2 o2 g2 st.now) := by
  intro st d1 m1 o1 g1 d2 m2 o2 g2 i h2 hscan
  have hc1 : st.superblock.free_inode_count ≠ 0 := by omega
  have hlt := scanIdx_lt_length hscan
  have heq1 := create_inode_success d1 m1 o1 g1 hc1 hscan
  have hfresh : ((fun ino => ino._size == 0) (fresh_inode d1 m1 o1 g1 st.now)) = true := rfl
  have hscan2 : scanIdx (fun ino => ino._size == 0)
      (create_inode_result d1 m1 o1 g1 st i).inode_table = some i := by
    simp only [create_inode_result]
    exact scanIdx_set_of_scanIdx hscan hfresh
  have hc2 : (create_inode_result d1 m1 o1 g1 st i).superblock.free_inode_count ≠ 0 := by
    simp only [create_inode_result]
    omega
  have heq2 := create_inode_success d2 m2 o2 g2 hc2 hscan2
  have hlt2 : i < (create_inode_result d1 m1 o1 g1 st i).inode_table.length := by
    simp only [create_inode_result]
    simpa using hlt
  refine ⟨by rw [heq1], ?_, ?_, ?_, ?_⟩
  · rw [heq1]
    simp only [create_inode_result]
    rw [getElem?_set_self hlt]
    rfl
  · rw [heq1, heq2]
  · rw [heq1, heq2]
    simp only [create_inode_result]
    omega
  · rw [heq1, heq2]
    simp only [create_inode_result]
    exact getElem?_set_self (by simpa using hlt)

set_option maxRecDepth 8000 in
/-- Witness for CLAIM C6's amended theorem: two consecutive `create_inode`
calls on the fresh state (128 free inodes) both return slot `0`. -/
theorem claim_C6_amended_witness :
    2 ≤ init_file_system.superblock.free_inode_count ∧
    (create_inode 0 0o777 11 10 init_file_system).1 = 0 ∧
    (create_inode 1 0o755 7 7 (create_inode 0 0o777 11 10 init_file_system).2).1 = 0 := by
  have h := claim_C6_amended init_file_system 0 0o777 11 10 1 0o755 7 7 0 (by decide) rfl
  exact ⟨by decide, h.1, h.2.2.1⟩

/-! ## Claim C4 -/

/-- CLAIM C4 fails as stated: when the host-level `fopen` fails, the
in-memory bookkeeping is NOT left as if the operation never happened — on
the fresh state, a failed create of `a.txt` still adds a root-directory
entry and still decrements `free_inode_count`; only the journal is left
untouched. -/
theorem claim_C4_counterexample :
    (create_file "a.txt" 0 false init_file_system).1 = -1 ∧
    (create_file "a.txt" 0 false init_file_system).2.root_directory.entry_count = 1 ∧
    (create_file "a.txt" 0 false init_file_system).2.superblock.free_inode_count = 127 ∧
    (create_file "a.txt" 0 false init_file_system).2.journal = init_file_system.journal := by
  exact ⟨rfl, rfl, rfl, rfl⟩

/-- CLAIM C4, amended: on a create whose host-level file step fails, no
journal entry is recorded and nothing is flushed (the host create is
performed before any journal append, and only success is recorded), but the
in-memory bookkeeping is not rolled back: the directory index keeps the new
entry and the free-inode count stays decremented. On the success path the
journal receives the CREATE entry at the pre-call ring index. -/
theorem claim_C4_amended :
    (∀ (st : FSState) (path : String) (d : Int),
      (create_file path d false st).2.journal = st.journal ∧
      (create_file path d false st).2.saved_log = st.saved_log ∧
      (create_file path d false st).2.journal_index = st.journal_index) ∧
    (∀ (st : FSState) (path : String) (d : Int),
      file_exists path st = false →
      (create_inode d 0o777 current_user_id current_group_id st).1 ≠ -1 →
      (create_file path d false st).1 = -1 ∧
      (create_file path d false st).2.root_directory.entries =
        st.root_directory.entries ++
          [{ name := path,
             inode_number := (create_inode d 0o777 current_user_id current_group_id st).1 }] ∧
      (create_file path d false st).2.superblock.free_inode_count =
        st.superblock.free_inode_count - 1) ∧
    (∀ (st : FSState) (path : String) (d : Int),
      file_exists path st = false →
      (create_inode d 0o777 current_user_id current_group_id st).1 ≠ -1 →
      (create_file path d true st).1 = 0 ∧
      (create_file path d true st).2.journal =
        st.journal.set st.journal_index
          { operation := CREATE, filename := path, new_filename := "", data := "",
            timestamp := st.now }) := by
  refine ⟨?_, ?_, ?_⟩
  · intro st path d
    rw [create_file]
    by_cases hex : file_exists path st
    · simp [hex]
    · simp only [hex, Bool.false_eq_true, if_false]
      rcases create_inode_cases d 0o777 current_user_id current_group_id st with
        ⟨hc, heq⟩ | ⟨hc, hscan, heq⟩ | ⟨i, hc, hscan, heq⟩
      · simp [heq]
      · simp [heq]
      · have hne : ((i : Int)) ≠ -1 := by omega
        simp [heq, hne, create_inode_result]
  · intro st path d hex hsucc
    rcases create_inode_cases d 0o777 current_user_id current_group_id st with
      ⟨hc, heq⟩ | ⟨hc, hscan, heq⟩ | ⟨i, hc, hscan, heq⟩
    · rw [heq] at hsucc; simp at hsucc
    · rw [heq] at hsucc; simp at hsucc
    · have hne : ((i : Int)) ≠ -1 := by omega
      rw [create_file]
      simp only [hex, Bool.false_eq_true, if_false]
      simp [heq, hne, create_inode_result]
  · intro st path d hex hsucc
    rcases create_inode_cases d 0o777 current_user_id current_group_id st with
      ⟨hc, heq⟩ | ⟨hc, hscan, heq⟩ | ⟨i, hc, hscan, heq⟩
    · rw [heq] at hsucc; simp at hsucc
    · rw [heq] at hsucc; simp at hsucc
    · have hne : ((i : Int)) ≠ -1 := by omega
      rw [create_file]
      simp only [hex, Bool.false_eq_true, if_false]
      simp [heq, hne, create_inode_result, add_journal_entry, save_journal]

/-- Witness for CLAIM C4's amended theorem: a successful create of `b.txt`
from the fresh state returns `0` and journals the CREATE entry. -/
theorem claim_C4_amended_witness :
    file_exists "b.txt" init_file_system = false ∧
    (create_inode 0 0o777 current_user_id current_group_id init_file_system).1 ≠ -1 ∧
    (create_file "b.txt" 0 true init_file_system).1 = 0 := by
  have h := claim_C4_amended.2.2 init_file_system "b.txt" 0 rfl (by decide)
  exact ⟨rfl, by decide, h.1⟩

/-! ## Helper lemma for the delete-file block loop -/

/-- Behaviour of the direct-block loop of `delete_file` when the non-sentinel
references are pairwise distinct, in range and marked used: every reference
comes back as `-1`, `free_blocks` grows by the number of freed blocks, the
freed bitmap slots become free, untouched slots keep their value, and the
rest of the superblock is unchanged. -/
theorem free_blocks_loop_spec (bs : List Int) :
    ∀ (sb : Superblock),
      (bs.filter (fun b => b != -1)).Nodup →
      (∀ b ∈ bs, b ≠ -1 →
        0 ≤ b ∧ b < (NUM_BLOCKS : Int) ∧ sb.free_block_bitmap.getD b.toNat 0 = 1) →
      (free_blocks_loop sb bs).2 = List.replicate bs.length (-1) ∧
      (free_blocks_loop sb bs).1.free_blocks =
        sb.free_blocks + (((bs.filter (fun b => b != -1)).length : Nat) : Int) ∧
      (free_blocks_loop sb bs).1.free_inode_count = sb.free_inode_count ∧
      (free_blocks_loop sb bs).1.free_block_bitmap.length =
        sb.free_block_bitmap.length ∧
      (∀ b ∈ bs, b ≠ -1 →
        (free_blocks_loop sb bs).1.free_block_bitmap.getD b.toNat 0 = 0) ∧
      (∀ i : Nat, (∀ b ∈ bs, b ≠ -1 → b.toNat ≠ i) →
        (free_blocks_loop sb bs).1.free_block_bitmap.getD i 0 =
          sb.free_block_bitmap.getD i 0) := by
  induction bs with
  | nil =>
    intro sb _ _
    simp [free_blocks_loop]
  | cons b bs ih =>
    intro sb hnodup hmem
    by_cases hb : b = -1
    · have hfilter : (b :: bs).filter (fun x => x != -1) =
          bs.filter (fun x => x != -1) := by
        simp [List.filter_cons, hb]
      have hloop : free_blocks_loop sb (b :: bs) =
          ((free_blocks_loop sb bs).1, b :: (free_blocks_loop sb bs).2) := by
        simp [free_blocks_loop, hb]
      rw [hfilter] at hnodup
      obtain ⟨h1, h2, h3, h4, h5, h6⟩ := ih sb hnodup
        (fun b' hb' hneg => hmem b' (by simp [hb']) hneg)
      rw [hloop]
      refine ⟨?_, ?_, h3, h4, ?_, ?_⟩
      · simp [h1, hb, List.replicate_succ]
      · rw [hfilter]
        exact h2
      · intro b' hb' hneg
        rcases List.mem_cons.mp hb' with rfl | hb'bs
        · exact absurd hb hneg
        · exact h5 b' hb'bs hneg
      · intro i hi
        exact h6 i (fun b' hb' hneg => hi b' (by simp [hb']) hneg)
    · obtain ⟨hb0, hbN, hbit⟩ := hmem b (by simp) hb
      have hget : sb.free_block_bitmap[b.toNat]? = some 1 := getElem?_of_getD_eq_one hbit
      have hblt : b.toNat < sb.free_block_bitmap.length :=
        lt_length_of_getElem?_eq_some hget
      have hrange : ¬ (b < 0 ∨ b ≥ (NUM_BLOCKS : Int)) := by omega
      have hsb1 : free_block b sb =
          { sb with free_block_bitmap := sb.free_block_bitmap.set b.toNat 0,
                    free_blocks := sb.free_blocks + 1 } := by
        rw [free_block, if_neg hrange, if_pos hbit]
      have hloop : free_blocks_loop sb (b :: bs) =
          ((free_blocks_loop (free_block b sb) bs).1,
            (-1) :: (free_blocks_loop (free_block b sb) bs).2) := by
        simp [free_blocks_loop, hb]
      have hfilter : (b :: bs).filter (fun x => x != -1) =
          b :: bs.filter (fun x => x != -1) := by
        simp [List.filter_cons, hb]
      rw [hfilter] at hnodup
      have hnodup' : (bs.filter (fun x => x != -1)).Nodup :=
        (List.nodup_cons.mp hnodup).2
      have hbnotin : b ∉ bs.filter (fun x => x != -1) :=
        (List.nodup_cons.mp hnodup).1
      have hne_toNat : ∀ b' ∈ bs, b' ≠ -1 → b'.toNat ≠ b.toNat := by
        intro b' hb' hneg heq
        have hb'f : b' ∈ bs.filter (fun x => x != -1) := by
          simp [List.mem_filter, hb', hneg]
        have hb'0 : 0 ≤ b' := (hmem b' (by simp [hb']) hneg).1
        have hbb : b' = b := by omega
        exact hbnotin (hbb ▸ hb'f)
      have hmem' : ∀ b' ∈ bs, b' ≠ -1 →
          0 ≤ b' ∧ b' < (NUM_BLOCKS : Int) ∧
          (free_block b sb).free_block_bitmap.getD b'.toNat 0 = 1 := by
        intro b' hb' hneg
        obtain ⟨h0', hN', hbit'⟩ := hmem b' (by simp [hb']) hneg
        refine ⟨h0', hN', ?_⟩
        rw [hsb1]
        show (sb.free_block_bitmap.set b.toNat 0).getD b'.toNat 0 = 1
        rw [getD_set_ne (Ne.symm (hne_toNat b' hb' hneg))]
        exact hbit'
      obtain ⟨h1, h2, h3, h4, h5, h6⟩ := ih (free_block b sb) hnodup' hmem'
      rw [hloop]
      refine ⟨?_, ?_, ?_, ?_, ?_, ?_⟩
      · simp [h1, List.replicate_succ]
      · rw [h2, hsb1, hfilter]
        show sb.free_blocks + 1 + (((bs.filter (fun x => x != -1)).length : Nat) : Int) =
          sb.free_blocks +
            (((b :: bs.filter (fun x => x != -1)).length : Nat) : Int)
        simp only [List.length_cons]
        push_cast
        omega
      · rw [h3, hsb1]
      · rw [h4, hsb1]
        show (sb.free_block_bitmap.set b.toNat 0).length = sb.free_block_bitmap.length
        simp
      · intro b' hb' hneg
        rcases List.mem_cons.mp hb' with rfl | hb'bs
        · refine Eq.trans (h6 b'.toNat (fun b'' hb'' hneg'' => hne_toNat b'' hb'' hneg'')) ?_
          rw [hsb1]
          show (sb.free_block_bitmap.set b'.toNat 0).getD b'.toNat 0 = 0
          exact getD_set_self hblt
        · exact h5 b' hb'bs hneg
      · intro i hi
        have hbi : b.toNat ≠ i := hi b (by simp) hb
        refine Eq.trans (h6 i (fun b' hb' hneg => hi b' (by simp [hb']) hneg)) ?_
        rw [hsb1]
        show (sb.free_block_bitmap.set b.toNat 0).getD i 0 = sb.free_block_bitmap.getD i 0
        exact getD_set_ne hbi

/-! ## Claim C7 -/

/-- CLAIM C7: when an inode is released during deletion — its non-sentinel
block references being distinct, in range, and marked used — every allocated
direct block and the indirect block (if set) is freed: all direct references
come back as the `-1` sentinel, the index-block reference becomes `-1`, each
freed bitmap slot becomes free and `free_blocks` grows by the number of
returned blocks, size and `is_directory` are reset, the superblock's
free-inode count is NOT incremented back, and inode slots other than the
released one are unchanged. -/
theorem claim_C7_release :
    ∀ (sb : Superblock) (inode : Inode) (now : Nat),
      (release_refs inode).Nodup →
      (∀ b ∈ release_refs inode,
        0 ≤ b ∧ b < (NUM_BLOCKS : Int) ∧ sb.free_block_bitmap.getD b.toNat 0 = 1) →
      (release_inode sb inode now).2.direct_blocks =
        List.replicate inode.direct_blocks.length (-1) ∧
      (release_inode sb inode now).2.index_block = -1 ∧
      (release_inode sb inode now).2._size = 0 ∧
      (release_inode sb inode now).2.is_directory = 0 ∧
      (release_inode sb inode now).1.free_inode_count = sb.free_inode_count ∧
      (release_inode sb inode now).1.free_blocks =
        sb.free_blocks + (((release_refs inode).length : Nat) : Int) ∧
      (∀ b ∈ release_refs inode,
        (release_inode sb inode now).1.free_block_bitmap.getD b.toNat 0 = 0) ∧
      (∀ (tbl : List Inode) (n m : Nat), m ≠ n →
        (tbl.set n (release_inode sb inode now).2)[m]? = tbl[m]?) := by
  intro sb inode now hnodup hmem
  have hmemA : ∀ b ∈ inode.direct_blocks, b ≠ -1 →
      0 ≤ b ∧ b < (NUM_BLOCKS : Int) ∧ sb.free_block_bitmap.getD b.toNat 0 = 1 := by
    intro b hb hneg
    exact hmem b (List.mem_append_left _
      (List.mem_filter.mpr ⟨hb, by simpa using hneg⟩))
  have hnodupA : (inode.direct_blocks.filter (fun b => b != -1)).Nodup :=
    (List.nodup_append.mp (by simpa [release_refs] using hnodup)).1
  obtain ⟨g1, g2, g3, g4, g5, g6⟩ := free_blocks_loop_spec inode.direct_blocks sb hnodupA hmemA
  by_cases hidx : inode.index_block ≠ -1
  · have hrefs : release_refs inode =
        inode.direct_blocks.filter (fun b => b != -1) ++ [inode.index_block] := by
      simp [release_refs, hidx]
    obtain ⟨hi0, hiN, hibit⟩ :=
      hmem inode.index_block (by rw [hrefs]; exact List.mem_append_right _ (by simp))
    have hdisj : ∀ b ∈ inode.direct_blocks, b ≠ -1 →
        b.toNat ≠ inode.index_block.toNat := by
      intro b hb hneg heq
      have hbf : b ∈ inode.direct_blocks.filter (fun x => x != -1) :=
        List.mem_filter.mpr ⟨hb, by simpa using hneg⟩
      have hb0 : 0 ≤ b := (hmemA b hb hneg).1
      have hbb : b = inode.index_block := by omega
      have hd := (List.nodup_append.mp (by simpa [hrefs] using hnodup)).2.2
      exact hd hbf (by simp [hbb])
    have hbit1 : (free_blocks_loop sb inode.direct_blocks).1.free_block_bitmap.getD
        inode.index_block.toNat 0 = 1 := by
      rw [g6 inode.index_block.toNat hdisj]
      exact hibit
    have hgety := getElem?_of_getD_eq_one hbit1
    have hlty := lt_length_of_getElem?_eq_some hgety
    have hrangeI : ¬ (inode.index_block < 0 ∨ inode.index_block ≥ (NUM_BLOCKS : Int)) := by
      omega
    have hfi : free_index_block inode.index_block (free_blocks_loop sb inode.direct_blocks).1 =
        { (free_blocks_loop sb inode.direct_blocks).1 with
            free_block_bitmap :=
              (free_blocks_loop sb inode.direct_blocks).1.free_block_bitmap.set
                inode.index_block.toNat 0,
            free_blocks := (free_blocks_loop sb inode.direct_blocks).1.free_blocks + 1 } := by
      rw [free_index_block, if_neg hrangeI, if_pos hbit1]
    have hrel : release_inode sb inode now =
        (free_index_block inode.index_block (free_blocks_loop sb inode.direct_blocks).1,
          { inode with
              direct_blocks := (free_blocks_loop sb inode.direct_blocks).2,
              index_block := -1,
              is_directory := 0,
              _size := 0,
              mtime := now,
              ctime := now }) := by
      simp only [release_inode]
      rw [if_pos hidx]
    refine ⟨?_, ?_, ?_, ?_, ?_, ?_, ?_, ?_⟩
    · rw [hrel]; exact g1
    · rw [hrel]
    · rw [hrel]
    · rw [hrel]
    · rw [hrel, hfi]
      exact g3
    · rw [hrel, hfi]
      show (free_blocks_loop sb inode.direct_blocks).1.free_blocks + 1 =
        sb.free_blocks + (((release_refs inode).length : Nat) : Int)
      rw [g2, hrefs]
      simp only [List.length_append, List.length_cons, List.length_nil]
      push_cast
      omega
    · intro b hb
      rw [hrefs] at hb
      rw [hrel, hfi]
      rcases List.mem_append.mp hb with hbf | hbi
      · obtain ⟨hbA, hbneq'⟩ := List.mem_filter.mp hbf
        have hbneq : b ≠ -1 := by simpa using hbneq'
        show ((free_blocks_loop sb inode.direct_blocks).1.free_block_bitmap.set
            inode.index_block.toNat 0).getD b.toNat 0 = 0
        rw [getD_set_ne (Ne.symm (hdisj b hbA hbneq))]
        exact g5 b hbA hbneq
      · have hbidx : b = inode.index_block := by simpa using hbi
        rw [hbidx]
        show ((free_blocks_loop sb inode.direct_blocks).1.free_block_bitmap.set
            inode.index_block.toNat 0).getD inode.index_block.toNat 0 = 0
        exact getD_set_self hlty
    · intro tbl n m hm
      exact getElem?_set_ne (fun h => hm h.symm)
  · have hidxeq : inode.index_block = -1 := by
      by_contra hne
      exact hidx hne
    have hrefs : release_refs inode =
        inode.direct_blocks.filter (fun b => b != -1) := by
      simp [release_refs, hidx]
    have hrel : release_inode sb inode now =
        ((free_blocks_loop sb inode.direct_blocks).1,
          { inode with
              direct_blocks := (free_blocks_loop sb inode.direct_blocks).2,
              index_block := -1,
              is_directory := 0,
              _size := 0,
              mtime := now,
              ctime := now }) := by
      simp only [release_inode]
      rw [if_neg hidx, hidxeq]
    refine ⟨?_, ?_, ?_, ?_, ?_, ?_, ?_, ?_⟩
    · rw [hrel]; exact g1
    · rw [hrel]
    · rw [hrel]
    · rw [hrel]
    · rw [hrel]; exact g3
    · rw [hrel]
      rw [g2, hrefs]
    · intro b hb
      rw [hrefs] at hb
      obtain ⟨hbA, hbneq'⟩ := List.mem_filter.mp hb
      have hbneq : b ≠ -1 := by simpa using hbneq'
      rw [hrel]
      exact g5 b hbA hbneq
    · intro tbl n m hm
      exact getElem?_set_ne (fun h => hm h.symm)

set_option maxRecDepth 8000 in
/-- Witness for CLAIM C7: releasing an inode with direct blocks `5` and `7`
and index block `9`, all marked used, returns all three blocks. -/
theorem claim_C7_release_witness :
    (release_refs c7_inode).Nodup ∧
    (∀ b ∈ release_refs c7_inode,
      0 ≤ b ∧ b < (NUM_BLOCKS : Int) ∧ c7_sb.free_block_bitmap.getD b.toNat 0 = 1) ∧
    (release_inode c7_sb c7_inode 50).1.free_blocks =
      c7_sb.free_blocks + (((release_refs c7_inode).length : Nat) : Int) ∧
    (release_inode c7_sb c7_inode 50).2.index_block = -1 ∧
    (release_inode c7_sb c7_inode 50).1.free_inode_count = c7_sb.free_inode_count := by
  have h := claim_C7_release c7_sb c7_inode 50 (by decide) (by decide)
  exact ⟨by decide, by decide, h.2.2.2.2.2.1, h.2.1, h.2.2.2.2.1⟩

/-! ## Helper lemmas for the journal ring buffer -/

theorem exists_getElem?_of_mem {l : List α} {a : α} (h : a ∈ l) :
    ∃ i : Nat, l[i]? = some a := by
  induction l with
  | nil => simp at h
  | cons b bs ih =>
    rcases List.mem_cons.mp h with rfl | h'
    · exact ⟨0, by simp⟩
    · obtain ⟨i, hi⟩ := ih h'
      exact ⟨i + 1, by simpa using hi⟩

/-- Behaviour of a run of `add_journal_entry` calls that does not wrap the
ring: the index advances by the number of entries (mod the ring size), the
clock and journal length are untouched, and slot `i` holds the entry
appended at offset `i - start` (stamped with the current time) when `i`
falls in the written window, its old content otherwise. -/
theorem add_journal_entries_no_wrap
    (es : List (Int × String × Option String × Option String)) :
    ∀ (st : FSState),
      st.journal_index < JOURNAL_SIZE →
      st.journal_index + es.length ≤ JOURNAL_SIZE →
      st.journal.length = JOURNAL_SIZE →
      (add_journal_entries es st).journal_index =
        (st.journal_index + es.length) % JOURNAL_SIZE ∧
      (add_journal_entries es st).journal.length = JOURNAL_SIZE ∧
      (add_journal_entries es st).now = st.now ∧
      (∀ i : Nat,
        (add_journal_entries es st).journal[i]? =
          if st.journal_index ≤ i ∧ i < st.journal_index + es.length then
            (es[i - st.journal_index]?).map (stamp_entry st.now)
          else st.journal[i]?) := by
  induction es with
  | nil =>
    intro st hidx hle hlen
    refine ⟨by simp [add_journal_entries, Nat.mod_eq_of_lt hidx],
      by simpa [add_journal_entries] using hlen, rfl, ?_⟩
    intro i
    have hcond : ¬ (st.journal_index ≤ i ∧
        i < st.journal_index + ([] : List (Int × String × Option String × Option String)).length) := by
      simp only [List.length_nil]
      omega
    rw [if_neg hcond]
    rfl
  | cons e es ih =>
    intro st hidx hle hlen
    have hstep : add_journal_entries (e :: es) st =
        add_journal_entries es (add_journal_entry e.1 (some e.2.1) e.2.2.1 e.2.2.2 st) := rfl
    have h1j : (add_journal_entry e.1 (some e.2.1) e.2.2.1 e.2.2.2 st).journal =
        st.journal.set st.journal_index (stamp_entry st.now e) := rfl
    have h1i : (add_journal_entry e.1 (some e.2.1) e.2.2.1 e.2.2.2 st).journal_index =
        (st.journal_index + 1) % JOURNAL_SIZE := rfl
    have h1n : (add_journal_entry e.1 (some e.2.1) e.2.2.1 e.2.2.2 st).now = st.now := rfl
    have h1len : (add_journal_entry e.1 (some e.2.1) e.2.2.1 e.2.2.2 st).journal.length =
        JOURNAL_SIZE := by
      rw [h1j]
      simpa using hlen
    have hJpos : 0 < JOURNAL_SIZE := by decide
    have hidx1 : (add_journal_entry e.1 (some e.2.1) e.2.2.1 e.2.2.2 st).journal_index <
        JOURNAL_SIZE := by
      rw [h1i]
      exact Nat.mod_lt _ hJpos
    have hle' : st.journal_index + es.length + 1 ≤ JOURNAL_SIZE := by
      simp only [List.length_cons] at hle
      omega
    have hle1 : (add_journal_entry e.1 (some e.2.1) e.2.2.1 e.2.2.2 st).journal_index +
        es.length ≤ JOURNAL_SIZE := by
      rw [h1i]
      rcases Nat.lt_or_ge (st.journal_index + 1) JOURNAL_SIZE with hlt | hge
      · rw [Nat.mod_eq_of_lt hlt]
        omega
      · have heq : st.journal_index + 1 = JOURNAL_SIZE := by omega
        have hes0 : es.length = 0 := by omega
        rw [heq, Nat.mod_self, hes0]
        omega
    obtain ⟨g1, g2, g3, g4⟩ := ih _ hidx1 hle1 h1len
    rw [hstep]
    refine ⟨?_, g2, by rw [g3, h1n], ?_⟩
    · rw [g1, h1i, Nat.mod_add_mod]
      congr 1
      simp only [List.length_cons]
      omega
    · intro i
      rw [g4 i, h1i, h1j, h1n]
      rcases Nat.lt_or_ge (st.journal_index + 1) JOURNAL_SIZE with hlt | hge
      · rw [Nat.mod_eq_of_lt hlt]
        by_cases hi1 : i < st.journal_index
        · have hcL : ¬ (st.journal_index + 1 ≤ i ∧
              i < st.journal_index + 1 + es.length) := by omega
          have hcR : ¬ (st.journal_index ≤ i ∧
              i < st.journal_index + (e :: es).length) := by
            simp only [List.length_cons]
            omega
          rw [if_neg hcL, if_neg hcR]
          exact getElem?_set_ne (by omega)
        · by_cases hi2 : i = st.journal_index
          · have hcL : ¬ (st.journal_index + 1 ≤ i ∧
                i < st.journal_index + 1 + es.length) := by omega
            have hcR : st.journal_index ≤ i ∧
                i < st.journal_index + (e :: es).length := by
              simp only [List.length_cons]
              omega
            rw [if_neg hcL, if_pos hcR, hi2]
            rw [getElem?_set_self (by omega)]
            simp
          · by_cases hi3 : i < st.journal_index + 1 + es.length
            · have hcL : st.journal_index + 1 ≤ i ∧
                  i < st.journal_index + 1 + es.length := by omega
              have hcR : st.journal_index ≤ i ∧
                  i < st.journal_index + (e :: es).length := by
                simp only [List.length_cons]
                omega
              rw [if_pos hcL, if_pos hcR]
              have hsub : i - st.journal_index = (i - (st.journal_index + 1)) + 1 := by
                omega
              rw [hsub]
              simp
            · have hcL : ¬ (st.journal_index + 1 ≤ i ∧
                  i < st.journal_index + 1 + es.length) := by omega
              have hcR : ¬ (st.journal_index ≤ i ∧
                  i < st.journal_index + (e :: es).length) := by
                simp only [List.length_cons]
                omega
              rw [if_neg hcL, if_neg hcR]
              exact getElem?_set_ne (by omega)
      · have heq : st.journal_index + 1 = JOURNAL_SIZE := by omega
        have hes0 : es.length = 0 := by omega
        have hes : es = [] := List.length_eq_zero.mp hes0
        subst hes
        rw [heq, Nat.mod_self]
        by_cases hi2 : i = st.journal_index
        · have hcL : ¬ (0 ≤ i ∧ i < 0 + ([] :
              List (Int × String × Option String × Option String)).length) := by
            simp only [List.length_nil]
            omega
          have hcR : st.journal_index ≤ i ∧ i < st.journal_index + ([e] :
              List (Int × String × Option String × Option String)).length := by
            simp only [List.length_cons, List.length_nil]
            omega
          rw [if_neg hcL, if_pos hcR, hi2]
          rw [getElem?_set_self (by omega)]
          simp
        · have hcL : ¬ (0 ≤ i ∧ i < 0 + ([] :
              List (Int × String × Option String × Option String)).length) := by
            simp only [List.length_nil]
            omega
          have hcR : ¬ (st.journal_index ≤ i ∧ i < st.journal_index + ([e] :
              List (Int × String × Option String × Option String)).length) := by
            simp only [List.length_cons, List.length_nil]
            omega
          rw [if_neg hcL, if_neg hcR]
          exact getElem?_set_ne (by omega)

/-! ## Claim C10 -/

/-- CLAIM C10: `add_journal_entry` writes the entry at the current ring
index stamped with the current time, advances the index to
`(index + 1) mod JOURNAL_SIZE`, and on every call flushes the whole log —
the persisted lines are exactly the serialization of the non-empty entries,
entries with timestamp zero being skipped; and appending
`JOURNAL_SIZE + 5` entries to an empty journal (at a non-zero time) leaves
exactly `JOURNAL_SIZE` non-empty slots, slots `0..4` holding the 5 newest
entries in place of the oldest 5 and every other slot holding its original
entry. -/
theorem claim_C10_journal :
    (∀ (st : FSState) (op : Int) (fn : String) (nf dat : Option String),
      (add_journal_entry op (some fn) nf dat st).journal =
        st.journal.set st.journal_index
          { operation := op, filename := fn, new_filename := nf.getD "",
            data := dat.getD "", timestamp := st.now } ∧
      (add_journal_entry op (some fn) nf dat st).journal_index =
        (st.journal_index + 1) % JOURNAL_SIZE ∧
      (add_journal_entry op (some fn) nf dat st).saved_log =
        ((add_journal_entry op (some fn) nf dat st).journal.filter
          (fun e => e.timestamp != 0)).map journal_line) ∧
    (∀ (t : Nat) (es1 es2 : List (Int × String × Option String × Option String)),
      t ≠ 0 → es1.length = JOURNAL_SIZE → es2.length = 5 →
      (add_journal_entries (es1 ++ es2) (journal_start t)).journal.countP
        (fun e => e.timestamp != 0) = JOURNAL_SIZE ∧
      (∀ i : Nat, i < 5 →
        (add_journal_entries (es1 ++ es2) (journal_start t)).journal[i]? =
          (es2[i]?).map (stamp_entry t)) ∧
      (∀ i : Nat, 5 ≤ i → i < JOURNAL_SIZE →
        (add_journal_entries (es1 ++ es2) (journal_start t)).journal[i]? =
          (es1[i]?).map (stamp_entry t))) := by
  constructor
  · intro st op fn nf dat
    exact ⟨rfl, rfl, rfl⟩
  intro t es1 es2 ht h1 h2
  have hsplit : add_journal_entries (es1 ++ es2) (journal_start t) =
      add_journal_entries es2 (add_journal_entries es1 (journal_start t)) := by
    simp [add_journal_entries, List.foldl_append]
  have hidx0 : (journal_start t).journal_index < JOURNAL_SIZE := by
    show (0 : Nat) < JOURNAL_SIZE
    decide
  have hle0 : (journal_start t).journal_index + es1.length ≤ JOURNAL_SIZE := by
    show 0 + es1.length ≤ JOURNAL_SIZE
    omega
  have hjlen0 : (journal_start t).journal.length = JOURNAL_SIZE := by
    show (List.replicate JOURNAL_SIZE emptyJournalEntry).length = JOURNAL_SIZE
    simp
  obtain ⟨p1, p2, p3, p4⟩ := add_journal_entries_no_wrap es1 (journal_start t) hidx0 hle0 hjlen0
  have hnow1 : (add_journal_entries es1 (journal_start t)).now = t := p3
  have hidx1 : (add_journal_entries es1 (journal_start t)).journal_index = 0 := by
    rw [p1]
    show (0 + es1.length) % JOURNAL_SIZE = 0
    rw [h1]
    simp
  obtain ⟨q1, q2, q3, q4⟩ := add_journal_entries_no_wrap es2
    (add_journal_entries es1 (journal_start t))
    (by rw [hidx1]; decide) (by rw [hidx1, h2]; decide) p2
  have hslot_low : ∀ i : Nat, i < 5 →
      (add_journal_entries (es1 ++ es2) (journal_start t)).journal[i]? =
        (es2[i]?).map (stamp_entry t) := by
    intro i hi
    rw [hsplit, q4 i]
    have hc : (add_journal_entries es1 (journal_start t)).journal_index ≤ i ∧
        i < (add_journal_entries es1 (journal_start t)).journal_index + es2.length := by
      rw [hidx1]
      omega
    rw [if_pos hc, hnow1, hidx1]
    simp
  have hslot_high : ∀ i : Nat, 5 ≤ i → i < JOURNAL_SIZE →
      (add_journal_entries (es1 ++ es2) (journal_start t)).journal[i]? =
        (es1[i]?).map (stamp_entry t) := by
    intro i h5 hJ
    rw [hsplit, q4 i]
    have hc : ¬ ((add_journal_entries es1 (journal_start t)).journal_index ≤ i ∧
        i < (add_journal_entries es1 (journal_start t)).journal_index + es2.length) := by
      rw [hidx1, h2]
      omega
    rw [if_neg hc, p4 i]
    have hc2 : (journal_start t).journal_index ≤ i ∧
        i < (journal_start t).journal_index + es1.length := by
      refine ⟨by omega, ?_⟩
      show i < 0 + es1.length
      omega
    rw [if_pos hc2]
    simp [journal_start, init_file_system]
  refine ⟨?_, hslot_low, hslot_high⟩
  have hlenf : (add_journal_entries (es1 ++ es2) (journal_start t)).journal.length =
      JOURNAL_SIZE := by
    rw [hsplit]
    exact q2
  have hall : ∀ x ∈ (add_journal_entries (es1 ++ es2) (journal_start t)).journal,
      (x.timestamp != 0) = true := by
    intro x hx
    obtain ⟨i, hi⟩ := exists_getElem?_of_mem hx
    have hiJ : i < JOURNAL_SIZE := by
      have := lt_length_of_getElem?_eq_some hi
      omega
    by_cases hi5 : i < 5
    · rw [hslot_low i hi5] at hi
      rcases hes2 : es2[i]? with _ | e2
      · rw [hes2] at hi
        simp at hi
      · rw [hes2] at hi
        simp at hi
        have hts : x.timestamp = t := by
          rw [← hi]
          rfl
        simpa [hts] using ht
    · rw [hslot_high i (by omega) hiJ] at hi
      rcases hes1 : es1[i]? with _ | e1
      · rw [hes1] at hi
        simp at hi
      · rw [hes1] at hi
        simp at hi
        have hts : x.timestamp = t := by
          rw [← hi]
          rfl
        simpa [hts] using ht
  rw [List.countP_eq_length.mpr hall, hlenf]

/-- Witness for CLAIM C10: the wraparound scenario instantiated with 1024
CREATE appends for `f` followed by 5 DELETE appends for `g` at time 7. -/
theorem claim_C10_journal_witness :
    (7 : Nat) ≠ 0 ∧ c10_es1.length = JOURNAL_SIZE ∧ c10_es2.length = 5 ∧
    (add_journal_entries (c10_es1 ++ c10_es2) (journal_start 7)).journal.countP
      (fun e => e.timestamp != 0) = JOURNAL_SIZE := by
  have h := claim_C10_journal.2 7 c10_es1 c10_es2 (by decide)
    (by simp [c10_es1]) (by simp [c10_es2])
  exact ⟨by decide, by simp [c10_es1], by simp [c10_es2], h.1⟩

/-! ## Claim C2 -/

theorem getElem?_replicate {n i : Nat} {a : α} :
    (List.replicate n a)[i]? = if i < n then some a else none := by
  induction n generalizing i with
  | zero => simp
  | succ n ih =>
    cases i with
    | zero => simp [List.replicate]
    | succ i =>
      simp only [List.replicate]
      rw [List.getElem?_cons_succ, ih]
      by_cases h : i < n
      · rw [if_pos h, if_pos (by omega)]
      · rw [if_neg h, if_neg (by omega)]

/-- A replay iteration is the identity on any slot that is empty or carries
an operation code outside the four handled by the `switch` (CREATE, DELETE,
MODIFY, RENAME). -/
theorem replay_step_id (st : FSState) (i : Nat)
    (h : ((st.journal[i]?).getD emptyJournalEntry).timestamp = 0 ∨
      (((st.journal[i]?).getD emptyJournalEntry).operation ≠ CREATE ∧
       ((st.journal[i]?).getD emptyJournalEntry).operation ≠ DELETE ∧
       ((st.journal[i]?).getD emptyJournalEntry).operation ≠ MODIFY ∧
       ((st.journal[i]?).getD emptyJournalEntry).operation ≠ RENAME)) :
    replay_step st i = st := by
  simp only [replay_step]
  rcases h with h | ⟨h1, h2, h3, h4⟩
  · rw [if_pos h]
  · by_cases hts : ((st.journal[i]?).getD emptyJournalEntry).timestamp = 0
    · rw [if_pos hts]
    · rw [if_neg hts, if_neg h1, if_neg h2, if_neg h3, if_neg h4]

/-- Replaying a journal none of whose entries is a recognizable
directory-mutating operation leaves the state unchanged. -/
theorem replay_journal_id (st : FSState)
    (h : ∀ i : Nat, ((st.journal[i]?).getD emptyJournalEntry).timestamp = 0 ∨
      (((st.journal[i]?).getD emptyJournalEntry).operation ≠ CREATE ∧
       ((st.journal[i]?).getD emptyJournalEntry).operation ≠ DELETE ∧
       ((st.journal[i]?).getD emptyJournalEntry).operation ≠ MODIFY ∧
       ((st.journal[i]?).getD emptyJournalEntry).operation ≠ RENAME)) :
    replay_journal st = st := by
  rw [replay_journal]
  have key : ∀ (l : List Nat), l.foldl replay_step st = st := by
    intro l
    induction l with
    | nil => rfl
    | cons j l ihl =>
      rw [List.foldl_cons, replay_step_id st j (h j)]
      exact ihl
  exact key _

set_option maxRecDepth 8000 in
/-- CLAIM C2 is broken by the code: `save_journal` serializes operation tags
through `operation_to_string` (past tense, e.g. `CREATED`), but
`init_journal` parses them back through `string_to_operation`, which only
recognizes the imperative forms (`CREATE`, ...), so every reloaded
directory-mutating entry carries the unknown operation code `-1` and
`replay_journal` skips it. Concretely: direct execution of one CREATE of
`a.txt` puts `a.txt` in the Directory Index, while saving, reloading and
replaying the same single-entry journal in a fresh session leaves the
Directory Index empty. -/
theorem claim_C2_roundtrip :
    string_to_operation (operation_to_string CREATE) = -1 ∧
    string_to_operation (operation_to_string DELETE) = -1 ∧
    string_to_operation (operation_to_string RENAME) = -1 ∧
    c2_direct.root_directory.entries = [{ name := "a.txt", inode_number := 0 }] ∧
    c2_reloaded.journal = (List.replicate JOURNAL_SIZE emptyJournalEntry).set 0 c2_bad_entry ∧
    (replay_journal c2_reloaded).root_directory.entries = [] := by
  have hj : c2_reloaded.journal =
      (List.replicate JOURNAL_SIZE emptyJournalEntry).set 0 c2_bad_entry := rfl
  have hcond : ∀ i : Nat,
      ((c2_reloaded.journal[i]?).getD emptyJournalEntry).timestamp = 0 ∨
      (((c2_reloaded.journal[i]?).getD emptyJournalEntry).operation ≠ CREATE ∧
       ((c2_reloaded.journal[i]?).getD emptyJournalEntry).operation ≠ DELETE ∧
       ((c2_reloaded.journal[i]?).getD emptyJournalEntry).operation ≠ MODIFY ∧
       ((c2_reloaded.journal[i]?).getD emptyJournalEntry).operation ≠ RENAME) := by
    intro i
    rw [hj]
    by_cases hi0 : i = 0
    · subst hi0
      rw [getElem?_set_self (by rw [List.length_replicate]; decide)]
      exact Or.inr ⟨by decide, by decide, by decide, by decide⟩
    · rw [getElem?_set_ne (fun h => hi0 h.symm), getElem?_replicate]
      by_cases hiJ : i < JOURNAL_SIZE
      · rw [if_pos hiJ]
        exact Or.inl rfl
      · rw [if_neg hiJ]
        exact Or.inl rfl
  have hrep : replay_journal c2_reloaded = c2_reloaded := replay_journal_id _ hcond
  refine ⟨rfl, rfl, rfl, rfl, hj, ?_⟩
  rw [hrep]
  rfl

end FS
